import Mathlib

/-!
# Verification of the CSV validate/normalize/transform pipeline

A shallow embedding of the validation and transformation code of
`exercises/exercise-2.py` and `exercises/exercise-3.py`.

Strings are modelled as `List Char` (`Str`).  Python string primitives are
modelled on the ASCII fragment that the code exercises:

* `str.strip()` ........ `pyStrip` (Python's whitespace set, ASCII fragment);
* `str.lower()` ........ `pyLower` (ASCII case folding, `Char.toLower`);
* `str.replace(a, b)` .. `pyReplace a b` for single-character patterns;
* `int(s)` ............. `toNatDigits` on all-digit strings;
* `s.split(".")` ....... `splitOnDot`;
* regex character classes `[a-zA-Z0-9]` / `\d` ... `Char.isAlphanum` / `Char.isDigit`.

Rows (`csv.DictReader` dictionaries) are modelled as a structure of optional
fields, one per column name the code ever looks up; `row.get(k, d)` becomes
`Option.getD`, which faithfully keeps the key-presence (not value) semantics
of the fallback lookups.
-/

abbrev Str := List Char

/-- The whitespace characters stripped by Python's `str.strip()` (ASCII fragment). -/
def pyWS (c : Char) : Bool :=
  c = ' ' || c = '\t' || c = '\n' || c = '\r' || c = '\x0b' || c = '\x0c'

/-- Python `str.strip()`: drop leading and trailing whitespace. -/
def pyStrip (s : Str) : Str :=
  ((s.dropWhile pyWS).reverse.dropWhile pyWS).reverse

/-- Strip trailing whitespace only (the second half of `pyStrip`):
`pyStrip s = stripTl (s.dropWhile pyWS)`. -/
def stripTl (s : Str) : Str := (s.reverse.dropWhile pyWS).reverse

/-- Python `str.lower()` (ASCII case folding). -/
def pyLower (s : Str) : Str := s.map Char.toLower

/-- Python `str.replace(a, b)` for single-character `a`, `b`. -/
def pyReplace (a b : Char) (s : Str) : Str :=
  s.map fun c => if c = a then b else c

/-- Python `int(s)` on an all-digit string. -/
def toNatDigits (s : Str) : Nat :=
  s.foldl (fun n c => 10 * n + (c.toNat - 48)) 0

/-- Python `s.split(".")`. -/
def splitOnDot : Str → List Str
  | [] => [[]]
  | c :: rest =>
    if c = '.' then [] :: splitOnDot rest
    else
      match splitOnDot rest with
      | [] => [[c]]
      | g :: gs => (c :: g) :: gs

/-- `dict.get` over an association-list constant (Python `mapping.get(k)`). -/
def tblGet : List (Str × Str) → Str → Option Str
  | [], _ => none
  | (k, v) :: rest, q => if q = k then some v else tblGet rest q

/-- One parsed CSV row: every column name the code ever looks up, as an
optional field.  `none` means the key is absent from the dictionary. -/
structure Row where
  hostname : Option Str := none
  name : Option Str := none
  ip : Option Str := none
  ip_address : Option Str := none
  type : Option Str := none
  device_type : Option Str := none
  loc : Option Str := none
  location : Option Str := none
  deriving DecidableEq

/-- `row.get("hostname", row.get("name", ""))`. -/
def rawHostname (row : Row) : Str := row.hostname.getD (row.name.getD [])

/-- `row.get("ip", row.get("ip_address", ""))`. -/
def rawIp (row : Row) : Str := row.ip.getD (row.ip_address.getD [])

/-- `row.get("type", row.get("device_type", ""))`. -/
def rawType (row : Row) : Str := row.type.getD (row.device_type.getD [])

/-- `row.get("loc", row.get("location", ""))`. -/
def rawLoc (row : Row) : Str := row.loc.getD (row.location.getD [])

/-- The `type_mapping` table (identical in exercise-2 and exercise-3). -/
def type_mapping : List (Str × Str) :=
  [("sw".toList, "switch".toList), ("switch".toList, "switch".toList),
   ("rtr".toList, "router".toList), ("router".toList, "router".toList),
   ("fw".toList, "firewall".toList), ("firewall".toList, "firewall".toList)]

/-- The `location_mapping` table (identical in exercise-2 and exercise-3). -/
def location_mapping : List (Str × Str) :=
  [("bldg a".toList, "building-a".toList), ("building a".toList, "building-a".toList),
   ("bldg b".toList, "building-b".toList), ("building b".toList, "building-b".toList),
   ("bldg c".toList, "building-c".toList), ("building c".toList, "building-c".toList),
   ("dc".toList, "data-center".toList), ("data center".toList, "data-center".toList),
   ("datacenter".toList, "data-center".toList)]

/-- The regex character class `[a-zA-Z0-9\-]`. -/
def alnumHyphen (c : Char) : Bool := c.isAlphanum || c == '-'

/-- Spec-side characterization of the hostname regex (the claim's words): a
single alphanumeric character, or a string starting and ending with an
alphanumeric character with only alphanumerics and hyphens between. -/
def hostnameSpec (t : Str) : Prop :=
  (∃ c, t = [c] ∧ c.isAlphanum = true) ∨
    (∃ c m d, t = c :: m ++ [d] ∧ c.isAlphanum = true ∧ d.isAlphanum = true ∧
      ∀ x ∈ m, alnumHyphen x = true)

/-- Spec-side characterization of one IP octet group: 1 to 3 characters, all
digits. -/
def octGroup (g : Str) : Prop :=
  1 ≤ g.length ∧ g.length ≤ 3 ∧ ∀ c ∈ g, c.isDigit = true

/-- Rebuild a string from its dot-split groups (inverse of `splitOnDot`). -/
def joinDots : List Str → Str
  | [] => []
  | [g] => g
  | g :: gs => g ++ '.' :: joinDots gs

namespace Ex2

/-- The anchored regex `^[a-zA-Z0-9][a-zA-Z0-9\-]*[a-zA-Z0-9]$|^[a-zA-Z0-9]$`
applied to a whole string: a single alphanumeric, or first and last characters
alphanumeric with only alphanumerics/hyphens between. -/
def hostnamePattern : Str → Bool
  | [] => false
  | [c] => c.isAlphanum
  | c1 :: c2 :: rest =>
    c1.isAlphanum && (((c2 :: rest).dropLast).all fun x => x.isAlphanum || x == '-') &&
      ((c2 :: rest).getLastD c1).isAlphanum

/-- `is_valid_hostname` from exercise-2: empty-after-strip is invalid, otherwise
the stripped string must match `hostnamePattern`. -/
def is_valid_hostname (hostname : Str) : Bool :=
  if hostname = [] ∨ pyStrip hostname = [] then false
  else hostnamePattern (pyStrip hostname)

/-- Greedy match of `\d{1,3}`: consume the leading digit run, succeed with the
remainder iff the run has length 1 to 3.  (Backtracking never helps for this
regex: any shorter split leaves a digit where `.` or end-of-string is required.) -/
def matchOct (t : Str) : Option Str :=
  if 1 ≤ (t.takeWhile Char.isDigit).length ∧ (t.takeWhile Char.isDigit).length ≤ 3 then
    some (t.dropWhile Char.isDigit)
  else none

/-- Match `\d{1,3}\.` and return the remainder. -/
def octDot (t : Str) : Option Str :=
  match matchOct t with
  | none => none
  | some r =>
    match r with
    | [] => none
    | c :: r2 => if c = '.' then some r2 else none

/-- The anchored regex `^(\d{1,3}\.){3}\d{1,3}$` applied to a whole string. -/
def ipFormat (t : Str) : Bool :=
  match octDot t with
  | none => false
  | some t1 =>
    match octDot t1 with
    | none => false
    | some t2 =>
      match octDot t2 with
      | none => false
      | some t3 =>
        match matchOct t3 with
        | none => false
        | some r => r.isEmpty

/-- `is_valid_ip` from exercise-2: strip, check the regex shape, then check
every dot-separated octet is in `[0, 255]`. -/
def is_valid_ip (ip_address : Str) : Bool :=
  if ip_address = [] ∨ pyStrip ip_address = [] then false
  else if ipFormat (pyStrip ip_address) then
    (splitOnDot (pyStrip ip_address)).all fun oct =>
      decide (0 ≤ toNatDigits oct ∧ toNatDigits oct ≤ 255)
  else false

/-- `normalize_device_type` from exercise-2. -/
def normalize_device_type (device_type : Str) : Str :=
  (tblGet type_mapping (pyStrip (pyLower device_type))).getD (pyStrip (pyLower device_type))

/-- `normalize_location` from exercise-2. -/
def normalize_location (location : Str) : Str :=
  (tblGet location_mapping (pyStrip (pyLower location))).getD
    (pyReplace ' ' '-' (pyStrip (pyLower location)))

/-- The cleaned-data dictionary built by `validate_row`. -/
structure Cleaned where
  hostname : Str
  ip_address : Str
  device_type : Str
  location : Str
  deriving DecidableEq

/-- The `ValidationResult` dataclass. -/
structure ValidationResult where
  row_number : Nat
  is_valid : Bool
  errors : List Str
  cleaned_data : Option Cleaned
  deriving DecidableEq

def missingHostnameMsg : Str := "Missing hostname".toList

def missingIpMsg : Str := "Missing IP address".toList

def missingTypeMsg : Str := "Missing device type".toList

def missingLocMsg : Str := "Missing location".toList

/-- An ASCII apostrophe, as used by the f-string error messages. -/
def quoteChar : Char := Char.ofNat 39

def invalidHostnameMsg (h : Str) : Str :=
  "Invalid hostname format: ".toList ++ quoteChar :: (h ++ [quoteChar])

def invalidIpMsg (ip : Str) : Str :=
  "Invalid IP address: ".toList ++ quoteChar :: (ip ++ [quoteChar])

/-- `validate_row` from exercise-2. -/
def validate_row (row_num : Nat) (row : Row) : ValidationResult :=
  let hostname := pyStrip (rawHostname row)
  let ip := pyStrip (rawIp row)
  let device_type := pyStrip (rawType row)
  let location := pyStrip (rawLoc row)
  let errors :=
    (if hostname = [] then [missingHostnameMsg]
     else if is_valid_hostname hostname then [] else [invalidHostnameMsg hostname]) ++
    (if ip = [] then [missingIpMsg]
     else if is_valid_ip ip then [] else [invalidIpMsg ip]) ++
    (if device_type = [] then [missingTypeMsg] else []) ++
    (if location = [] then [missingLocMsg] else [])
  let cleaned_data : Option Cleaned :=
    if errors = [] then
      some { hostname := pyReplace '_' '-' (pyLower hostname)
             ip_address := ip
             device_type := normalize_device_type device_type
             location := normalize_location location }
    else none
  { row_number := row_num
    is_valid := errors.length == 0
    errors := errors
    cleaned_data := cleaned_data }

end Ex2

namespace Ex3

/-- The `Device` dataclass of exercise-3 (`status` defaults to `"active"`). -/
structure Device where
  hostname : Str
  ip_address : Str
  device_type : Str
  location : Str
  status : Str := "active".toList
  deriving DecidableEq

/-- `normalize_hostname` from exercise-3: lowercase, strip, then replace
underscores and spaces with hyphens. -/
def normalize_hostname (hostname : Str) : Str :=
  pyReplace ' ' '-' (pyReplace '_' '-' (pyStrip (pyLower hostname)))

/-- `normalize_device_type` from exercise-3. -/
def normalize_device_type (dtype : Str) : Str :=
  (tblGet type_mapping (pyStrip (pyLower dtype))).getD (pyStrip (pyLower dtype))

/-- `normalize_location` from exercise-3. -/
def normalize_location (location : Str) : Str :=
  (tblGet location_mapping (pyStrip (pyLower location))).getD
    (pyReplace ' ' '-' (pyStrip (pyLower location)))

/-- `is_valid_row` from exercise-3: `bool(hostname and ip)` after stripping,
i.e. both resolved fields are non-empty after trimming. -/
def is_valid_row (row : Row) : Bool :=
  decide (pyStrip (rawHostname row) ≠ [] ∧ pyStrip (rawIp row) ≠ [])

/-- `transform_row` from exercise-3. -/
def transform_row (row : Row) : Option Device :=
  if is_valid_row row then
    some { hostname := normalize_hostname (pyStrip (rawHostname row))
           ip_address := pyStrip (rawIp row)
           device_type := normalize_device_type (pyStrip (rawType row))
           location := normalize_location (pyStrip (rawLoc row))
           status := "active".toList }
  else none

/-- The read-and-transform loop of `task_3_transform_pipeline`: collect the
transformed `Device`s in input order and count the skipped rows. -/
def readTransform : List Row → List Device × Nat
  | [] => ([], 0)
  | r :: rs =>
    let p := readTransform rs
    match transform_row r with
    | some d => (d :: p.1, p.2)
    | none => (p.1, p.2 + 1)

/-- The duplicate-removal loop of `task_3_transform_pipeline`: `seen` is the
set of hostnames already kept; keep the first occurrence per hostname and
count every later occurrence as one duplicate. -/
def dedupGo : List Str → List Device → List Device × Nat
  | _, [] => ([], 0)
  | seen, d :: rest =>
    if d.hostname ∈ seen then
      let p := dedupGo seen rest
      (p.1, p.2 + 1)
    else
      let p := dedupGo (d.hostname :: seen) rest
      (d :: p.1, p.2)

def removeDuplicates (ds : List Device) : List Device × Nat := dedupGo [] ds

/-- Lexicographic (code-point) strict order on strings, as Python compares
`str` values. -/
def strLt : Str → Str → Bool
  | [], [] => false
  | [], _ :: _ => true
  | _ :: _, [] => false
  | a :: as, b :: bs => if a < b then true else if b < a then false else strLt as bs

def strLe (x y : Str) : Bool := ! strLt y x

/-- The sort key of `unique_devices.sort(key=lambda d: d.hostname)`. -/
def devLe (d e : Device) : Prop := strLe d.hostname e.hostname = true

instance : DecidableRel devLe := fun d e =>
  inferInstanceAs (Decidable (strLe d.hostname e.hostname = true))

/-- `unique_devices.sort(key=lambda d: d.hostname)`: a stable sort that is
ascending by hostname (insertion sort is stable and sorted, which pins down
the same output list as Python's stable sort). -/
def sortByHostname (ds : List Device) : List Device := List.insertionSort devLe ds

/-- `task_3_transform_pipeline`: transform, deduplicate, sort.  Returns the
sorted unique devices, the skipped-row counter and the duplicate counter. -/
def task_3_transform_pipeline (rows : List Row) : List Device × Nat × Nat :=
  let p := readTransform rows
  let q := removeDuplicates p.1
  (sortByHostname q.1, p.2, q.2)

end Ex3

/-! ## Lemmas about the string primitives -/

lemma charToNat_inj {c d : Char} (h : c.toNat = d.toNat) : c = d := by
  rw [← Char.ofNat_toNat c, ← Char.ofNat_toNat d, h]

lemma toLower_toNat_of_upper {c : Char} (h : 65 ≤ c.toNat ∧ c.toNat ≤ 90) :
    (Char.toLower c).toNat = c.toNat + 32 := by
  unfold Char.toLower
  rw [if_pos h]
  have hv : (c.toNat + 32).isValidChar := by
    left
    omega
  rw [Char.ofNat, dif_pos hv]
  rfl

lemma toLower_of_not_upper {c : Char} (h : ¬ (65 ≤ c.toNat ∧ c.toNat ≤ 90)) :
    Char.toLower c = c := by
  unfold Char.toLower
  rw [if_neg h]

lemma toLower_toLower (c : Char) : Char.toLower (Char.toLower c) = Char.toLower c := by
  by_cases h : 65 ≤ c.toNat ∧ c.toNat ≤ 90
  · have h1 := toLower_toNat_of_upper h
    apply toLower_of_not_upper
    omega
  · rw [toLower_of_not_upper h]
    exact toLower_of_not_upper h

lemma toLower_ne_underscore {c : Char} (h : alnumHyphen c = true) :
    Char.toLower c ≠ '_' := by
  intro he
  by_cases hu : 65 ≤ c.toNat ∧ c.toNat ≤ 90
  · have h1 := toLower_toNat_of_upper hu
    rw [he] at h1
    have : ('_').toNat = 95 := by decide
    omega
  · rw [toLower_of_not_upper hu] at he
    subst he
    simp [alnumHyphen] at h

lemma pyWS_of_alnumHyphen {c : Char} (h : alnumHyphen c = true) : pyWS c = false := by
  by_contra hws
  simp only [Bool.not_eq_false, pyWS, Bool.or_eq_true, decide_eq_true_eq] at hws
  rcases hws with ((((h1 | h1) | h1) | h1) | h1) | h1 <;> subst h1 <;>
    simp [alnumHyphen] at h

lemma head?_dropWhile_ws {α : Type} {p : α → Bool} {l : List α} {c : α}
    (h : (l.dropWhile p).head? = some c) : p c = false := by
  have h2 := List.head?_dropWhile_not p l
  rw [h] at h2
  exact h2

lemma dropWhile_eq_self_of_head {α : Type} {p : α → Bool} {l : List α}
    (h : ∀ c, l.head? = some c → p c = false) : l.dropWhile p = l := by
  cases l with
  | nil => rfl
  | cons a t =>
    have := h a rfl
    simp [List.dropWhile_cons, this]

lemma dropWhile_ne_nil_of_last {α : Type} {p : α → Bool} {xs : List α} {c : α}
    (h : p c = false) : (xs ++ [c]).dropWhile p ≠ [] := by
  rw [List.dropWhile_append]
  split
  · simp [List.dropWhile_cons, h]
  · simp

lemma stripTl_getLast?_ws {s : Str} {c : Char} (h : (stripTl s).getLast? = some c) :
    pyWS c = false := by
  unfold stripTl at h
  rw [List.getLast?_reverse] at h
  exact head?_dropWhile_ws h

lemma stripTl_head? {s : Str} (hne : stripTl s ≠ []) : (stripTl s).head? = s.head? := by
  unfold stripTl at hne ⊢
  rw [List.head?_reverse]
  obtain ⟨t, ht⟩ := List.dropWhile_suffix (l := s.reverse) pyWS
  have hx : s.reverse.dropWhile pyWS ≠ [] := by
    intro hnil
    rw [hnil] at hne
    exact hne rfl
  cases hg : (s.reverse.dropWhile pyWS).getLast? with
  | none => exact absurd (List.getLast?_eq_none_iff.mp hg) hx
  | some a =>
    have h3 : s.reverse.getLast? = some a := by
      rw [← ht, List.getLast?_append, hg]
      rfl
    rw [List.getLast?_reverse] at h3
    exact h3.symm

lemma stripTl_eq_self {s : Str} {c : Char} (h : s.getLast? = some c)
    (hc : pyWS c = false) : stripTl s = s := by
  unfold stripTl
  have : s.reverse.dropWhile pyWS = s.reverse := by
    apply dropWhile_eq_self_of_head
    intro d hd
    rw [List.head?_reverse, h] at hd
    cases hd
    exact hc
  rw [this, List.reverse_reverse]

lemma mem_stripTl {s : Str} {c : Char} (h : c ∈ stripTl s) : c ∈ s := by
  unfold stripTl at h
  rw [List.mem_reverse] at h
  have := (List.dropWhile_sublist (l := s.reverse) pyWS).subset h
  rwa [List.mem_reverse] at this

lemma pyStrip_eq_stripTl (s : Str) : pyStrip s = stripTl (s.dropWhile pyWS) := rfl

lemma pyStrip_head?_ws {s : Str} {c : Char} (h : (pyStrip s).head? = some c) :
    pyWS c = false := by
  rw [pyStrip_eq_stripTl] at h
  have hne : stripTl (s.dropWhile pyWS) ≠ [] := by
    intro hnil
    rw [hnil] at h
    cases h
  rw [stripTl_head? hne] at h
  exact head?_dropWhile_ws h

lemma pyStrip_getLast?_ws {s : Str} {c : Char} (h : (pyStrip s).getLast? = some c) :
    pyWS c = false := stripTl_getLast?_ws h

lemma pyStrip_eq_self {s : Str}
    (hh : ∀ c, s.head? = some c → pyWS c = false)
    (hl : ∀ c, s.getLast? = some c → pyWS c = false) : pyStrip s = s := by
  rw [pyStrip_eq_stripTl, dropWhile_eq_self_of_head hh]
  cases hg : s.getLast? with
  | none =>
    rw [List.getLast?_eq_none_iff.mp hg]
    rfl
  | some c => exact stripTl_eq_self hg (hl c hg)

lemma pyStrip_idem (s : Str) : pyStrip (pyStrip s) = pyStrip s :=
  pyStrip_eq_self (fun _ h => pyStrip_head?_ws h) (fun _ h => pyStrip_getLast?_ws h)

lemma mem_pyStrip {s : Str} {c : Char} (h : c ∈ pyStrip s) : c ∈ s := by
  rw [pyStrip_eq_stripTl] at h
  exact (List.dropWhile_sublist pyWS).subset (mem_stripTl h)

lemma pyStrip_head?_of {s : Str} {c : Char} (h : s.head? = some c)
    (hc : pyWS c = false) : (pyStrip s).head? = some c := by
  have hd : s.dropWhile pyWS = s := dropWhile_eq_self_of_head (by
    intro d hdd
    rw [h] at hdd
    cases hdd
    exact hc)
  rw [pyStrip_eq_stripTl, hd]
  cases s with
  | nil => cases h
  | cons a t =>
    cases h
    have hne : stripTl (c :: t) ≠ [] := by
      unfold stripTl
      intro hnil
      rw [List.reverse_eq_nil_iff] at hnil
      have : (t.reverse ++ [c]).dropWhile pyWS ≠ [] := dropWhile_ne_nil_of_last hc
      rw [List.reverse_cons] at hnil
      exact this hnil
    rw [stripTl_head? hne]
    rfl

lemma pyStrip_getLast?_of {s : Str} {c : Char} (h : s.getLast? = some c)
    (hc : pyWS c = false) : (pyStrip s).getLast? = some c := by
  obtain ⟨ys, rfl⟩ := List.getLast?_eq_some_iff.mp h
  rw [pyStrip_eq_stripTl]
  have hx : (ys ++ [c]).dropWhile pyWS ≠ [] := dropWhile_ne_nil_of_last hc
  have hg : ((ys ++ [c]).dropWhile pyWS).getLast? = some c := by
    rw [List.dropWhile_append]
    split
    · simp [List.dropWhile_cons, hc]
    · simp
  rw [stripTl_eq_self hg hc]
  exact hg

lemma mem_pyLower {s : Str} {c : Char} (h : c ∈ pyLower s) : Char.toLower c = c := by
  rw [pyLower, List.mem_map] at h
  obtain ⟨a, _, rfl⟩ := h
  exact toLower_toLower a

lemma pyLower_eq_self {s : Str} (h : ∀ c ∈ s, Char.toLower c = c) : pyLower s = s :=
  (List.map_congr_left h).trans (List.map_id s)

lemma pyLower_idem (s : Str) : pyLower (pyLower s) = pyLower s :=
  pyLower_eq_self fun _ hc => mem_pyLower hc

lemma pyReplace_eq_self {a b : Char} {s : Str} (h : a ∉ s) : pyReplace a b s = s := by
  refine (List.map_congr_left ?_).trans (List.map_id s)
  intro c hc
  have : c ≠ a := fun he => h (he ▸ hc)
  simp [this]

lemma not_mem_pyReplace {a b : Char} {s : Str} (hne : b ≠ a) : a ∉ pyReplace a b s := by
  rw [pyReplace]
  intro h
  rw [List.mem_map] at h
  obtain ⟨c, _, hc⟩ := h
  by_cases hca : c = a
  · rw [if_pos hca] at hc
    exact hne hc
  · rw [if_neg hca] at hc
    exact hca hc

lemma mem_pyReplace_or {a b c : Char} {s : Str} (h : c ∈ pyReplace a b s) :
    c = b ∨ c ∈ s := by
  rw [pyReplace, List.mem_map] at h
  obtain ⟨d, hd, hdc⟩ := h
  by_cases hda : d = a
  · rw [if_pos hda] at hdc
    exact Or.inl hdc.symm
  · rw [if_neg hda] at hdc
    exact Or.inr (hdc ▸ hd)

lemma pyReplace_eq_self_of_not_mem {a b : Char} {s : Str}
    (h : b ∉ pyReplace a b s) : pyReplace a b s = s := by
  induction s with
  | nil => rfl
  | cons c t ih =>
    have hh : pyReplace a b (c :: t) = (if c = a then b else c) :: pyReplace a b t := rfl
    rw [hh] at h ⊢
    rw [List.mem_cons] at h
    push_neg at h
    by_cases hca : c = a
    · rw [if_pos hca] at h
      exact absurd rfl h.1
    · rw [if_neg hca] at h ⊢
      rw [ih h.2]

/-! ## Characterization of the hostname validator -/

lemma alnumHyphen_of_isAlphanum {c : Char} (h : c.isAlphanum = true) :
    alnumHyphen c = true := by
  simp [alnumHyphen, h]

lemma isAlphanum_ne_hyphen {c : Char} (h : c.isAlphanum = true) : c ≠ '-' := by
  intro he
  subst he
  simp at h

namespace Ex2

lemma hostnamePattern_iff (t : Str) : hostnamePattern t = true ↔ hostnameSpec t := by
  match t with
  | [] =>
    simp only [hostnamePattern, hostnameSpec]
    constructor
    · intro h
      cases h
    · rintro (⟨c, hc, _⟩ | ⟨c, m, d, hc, _⟩) <;> cases hc
  | [c] =>
    simp only [hostnamePattern, hostnameSpec]
    constructor
    · intro h
      exact Or.inl ⟨c, rfl, h⟩
    · rintro (⟨c2, hc, ha⟩ | ⟨c2, m, d, hc, _⟩)
      · cases hc
        exact ha
      · have := congrArg List.length hc
        simp at this
  | c1 :: c2 :: rest =>
    have hlne : (c2 :: rest) ≠ [] := by simp
    constructor
    · intro h
      simp only [hostnamePattern, Bool.and_eq_true] at h
      obtain ⟨⟨h1, h2⟩, h3⟩ := h
      refine Or.inr ⟨c1, (c2 :: rest).dropLast, (c2 :: rest).getLast hlne, ?_, h1, ?_, ?_⟩
      · rw [List.cons_append, List.dropLast_concat_getLast hlne]
      · rwa [List.getLastD_eq_getLast?, List.getLast?_eq_getLast _ hlne] at h3
      · intro x hx
        rw [List.all_eq_true] at h2
        have := h2 x hx
        simpa [alnumHyphen] using this
    · rintro (⟨c3, hc, _⟩ | ⟨c3, m, d, hc, ha, hd, hm⟩)
      · have := congrArg List.length hc
        simp at this
      · rw [List.cons_append] at hc
        have hc1 : c3 = c1 := by
          injection hc with h1 h2
          exact h1.symm
        have hrest : c2 :: rest = m ++ [d] := by
          injection hc with h1 h2
        subst hc1
        simp only [hostnamePattern, Bool.and_eq_true]
        refine ⟨⟨ha, ?_⟩, ?_⟩
        · rw [List.all_eq_true, hrest, List.dropLast_concat]
          intro x hx
          simpa [alnumHyphen] using hm x hx
        · rw [hrest, List.getLastD_concat]
          exact hd

lemma hostnameSpec_chars {t : Str} (h : hostnameSpec t) :
    ∀ c ∈ t, alnumHyphen c = true := by
  rcases h with ⟨c, rfl, ha⟩ | ⟨c, m, d, rfl, ha, hd, hm⟩
  · intro x hx
    rw [List.mem_singleton] at hx
    exact hx ▸ alnumHyphen_of_isAlphanum ha
  · intro x hx
    rw [List.mem_append] at hx
    rcases hx with hx | hx
    · rw [List.mem_cons] at hx
      rcases hx with rfl | hx
      · exact alnumHyphen_of_isAlphanum ha
      · exact hm x hx
    · rw [List.mem_singleton] at hx
      exact hx ▸ alnumHyphen_of_isAlphanum hd

lemma hostnameSpec_head {t : Str} (h : hostnameSpec t) :
    ∀ c, t.head? = some c → c.isAlphanum = true := by
  rcases h with ⟨c, rfl, ha⟩ | ⟨c, m, d, rfl, ha, _, _⟩ <;>
    · intro x hx
      cases hx
      exact ha

lemma hostnameSpec_getLast {t : Str} (h : hostnameSpec t) :
    ∀ c, t.getLast? = some c → c.isAlphanum = true := by
  rcases h with ⟨c, rfl, ha⟩ | ⟨c, m, d, rfl, _, hd, _⟩
  · intro x hx
    cases hx
    exact ha
  · intro x hx
    rw [List.getLast?_concat] at hx
    cases hx
    exact hd

lemma hostnameSpec_ne_nil {t : Str} (h : hostnameSpec t) : t ≠ [] := by
  rcases h with ⟨c, rfl, _⟩ | ⟨c, m, d, rfl, _, _, _⟩ <;> simp

lemma is_valid_hostname_iff (s : Str) :
    is_valid_hostname s = true ↔ pyStrip s ≠ [] ∧ hostnameSpec (pyStrip s) := by
  rw [is_valid_hostname]
  by_cases hs : s = [] ∨ pyStrip s = []
  · rw [if_pos hs]
    rcases hs with rfl | hs
    · simp [pyStrip]
    · simp [hs]
  · rw [if_neg hs]
    push_neg at hs
    rw [hostnamePattern_iff]
    simp [hs.2]

lemma is_valid_of_clean {s : Str} (hne : s ≠ [])
    (hall : ∀ c ∈ s, alnumHyphen c = true)
    (hh : s.head? ≠ some '-') (hl : s.getLast? ≠ some '-') :
    is_valid_hostname s = true := by
  have hstrip : pyStrip s = s := by
    apply pyStrip_eq_self
    · intro c hc
      cases s with
      | nil => cases hc
      | cons a t =>
        cases hc
        exact pyWS_of_alnumHyphen (hall c (by simp))
    · intro c hc
      exact pyWS_of_alnumHyphen (hall c (List.mem_of_getLast?_eq_some hc))
  rw [is_valid_hostname_iff, hstrip]
  refine ⟨hne, ?_⟩
  cases s with
  | nil => exact absurd rfl hne
  | cons a t =>
    have haan : a.isAlphanum = true := by
      have h1 := hall a (by simp)
      have h2 : a ≠ '-' := fun he => hh (by rw [he]; rfl)
      simpa [alnumHyphen, h2] using h1
    cases t with
    | nil => exact Or.inl ⟨a, rfl, haan⟩
    | cons b u =>
      have hbne : (b :: u) ≠ [] := by simp
      have hglast : (a :: b :: u).getLast? = some ((b :: u).getLast hbne) := by
        rw [List.getLast?_cons_cons, List.getLast?_eq_getLast _ hbne]
      have hdan : ((b :: u).getLast hbne).isAlphanum = true := by
        have h1 := hall _ (List.mem_of_getLast?_eq_some hglast)
        have h2 : (b :: u).getLast hbne ≠ '-' := fun he => hl (by rw [hglast, he])
        simpa [alnumHyphen, h2] using h1
      refine Or.inr ⟨a, (b :: u).dropLast, (b :: u).getLast hbne, ?_, haan, hdan, ?_⟩
      · rw [List.cons_append, List.dropLast_concat_getLast hbne]
      · intro x hx
        refine hall x ?_
        rw [List.mem_cons]
        exact Or.inr ((List.dropLast_sublist (b :: u)).subset hx)

end Ex2

/-! ## Characterization of the IPv4 validator -/

lemma isDigit_ne_dot {c : Char} (h : c.isDigit = true) : c ≠ '.' := by
  intro he
  subst he
  simp at h

lemma octGroup_ne_dot {g : Str} (h : octGroup g) : ∀ c ∈ g, c ≠ '.' :=
  fun c hc => isDigit_ne_dot (h.2.2 c hc)

lemma splitOnDot_ne_nil (t : Str) : splitOnDot t ≠ [] := by
  match t with
  | [] => simp [splitOnDot]
  | c :: rest =>
    rw [splitOnDot]
    split
    · simp
    · split <;> simp

lemma splitOnDot_append_dot {g : Str} (r : Str) (h : ∀ c ∈ g, c ≠ '.') :
    splitOnDot (g ++ '.' :: r) = g :: splitOnDot r := by
  induction g with
  | nil => simp [splitOnDot]
  | cons c g ih =>
    have hc : c ≠ '.' := h c (by simp)
    rw [List.cons_append, splitOnDot, if_neg hc,
      ih fun x hx => h x (by simp [hx])]

lemma splitOnDot_no_dot {g : Str} (h : ∀ c ∈ g, c ≠ '.') : splitOnDot g = [g] := by
  induction g with
  | nil => rfl
  | cons c g ih =>
    have hc : c ≠ '.' := h c (by simp)
    rw [splitOnDot, if_neg hc, ih fun x hx => h x (by simp [hx])]

lemma joinDots_cons {g : Str} {gs : List Str} (h : gs ≠ []) :
    joinDots (g :: gs) = g ++ '.' :: joinDots gs := by
  cases gs with
  | nil => exact absurd rfl h
  | cons g2 gs => rfl

lemma joinDots_splitOnDot (t : Str) : joinDots (splitOnDot t) = t := by
  induction t with
  | nil => rfl
  | cons c rest ih =>
    rw [splitOnDot]
    by_cases hc : c = '.'
    · rw [if_pos hc, joinDots_cons (splitOnDot_ne_nil rest), ih, hc]
      rfl
    · rw [if_neg hc]
      cases hs : splitOnDot rest with
      | nil => exact absurd hs (splitOnDot_ne_nil rest)
      | cons g gs =>
        rw [hs] at ih
        cases gs with
        | nil =>
          simp only [joinDots] at ih ⊢
          rw [ih]
        | cons g2 gs2 =>
          rw [joinDots_cons (by simp)] at ih
          rw [joinDots_cons (by simp), List.cons_append, ih]

lemma matchOct_eq_some {t r : Str} (h : Ex2.matchOct t = some r) :
    t = t.takeWhile Char.isDigit ++ r ∧ octGroup (t.takeWhile Char.isDigit) ∧
      r = t.dropWhile Char.isDigit := by
  rw [Ex2.matchOct] at h
  split at h
  · rename_i hlen
    cases h
    refine ⟨(List.takeWhile_append_dropWhile Char.isDigit t).symm,
      ⟨hlen.1, hlen.2, fun c hc => List.mem_takeWhile_imp hc⟩, rfl⟩
  · cases h

lemma matchOct_group_dot {g : Str} (r : Str) (h : octGroup g) :
    Ex2.matchOct (g ++ '.' :: r) = some ('.' :: r) := by
  have htake : (g ++ '.' :: r).takeWhile Char.isDigit = g := by
    rw [List.takeWhile_append_of_pos h.2.2]
    simp [List.takeWhile_cons]
  have hdrop : (g ++ '.' :: r).dropWhile Char.isDigit = '.' :: r := by
    rw [List.dropWhile_append_of_pos h.2.2]
    simp [List.dropWhile_cons]
  rw [Ex2.matchOct, htake, hdrop, if_pos ⟨h.1, h.2.1⟩]

lemma matchOct_group_end {g : Str} (h : octGroup g) : Ex2.matchOct g = some [] := by
  have htake : g.takeWhile Char.isDigit = g := List.takeWhile_eq_self_iff.mpr h.2.2
  have hdrop : g.dropWhile Char.isDigit = [] := List.dropWhile_eq_nil_iff.mpr h.2.2
  rw [Ex2.matchOct, htake, hdrop, if_pos ⟨h.1, h.2.1⟩]

lemma octDot_eq_some {t r : Str} : Ex2.octDot t = some r ↔
    ∃ g, t = g ++ '.' :: r ∧ octGroup g := by
  constructor
  · intro h
    rw [Ex2.octDot] at h
    split at h
    · cases h
    · rename_i r0 hm
      split at h
      · cases h
      · rename_i c r2 _
        split at h
        · rename_i hc
          cases h
          subst hc
          obtain ⟨ht, hg, _⟩ := matchOct_eq_some hm
          exact ⟨t.takeWhile Char.isDigit, ht, hg⟩
        · cases h
  · rintro ⟨g, rfl, hg⟩
    rw [Ex2.octDot, matchOct_group_dot r hg]
    simp

lemma matchOct_isEmpty {t : Str} :
    (∃ r, Ex2.matchOct t = some r ∧ r.isEmpty = true) ↔ octGroup t := by
  constructor
  · rintro ⟨r, hm, hr⟩
    rw [List.isEmpty_iff] at hr
    subst hr
    obtain ⟨ht, hg, _⟩ := matchOct_eq_some hm
    rw [List.append_nil] at ht
    exact ht ▸ hg
  · intro h
    exact ⟨[], matchOct_group_end h, rfl⟩

lemma ipFormat_iff_groups (t : Str) : Ex2.ipFormat t = true ↔
    ∃ g1 g2 g3 g4, t = g1 ++ '.' :: (g2 ++ '.' :: (g3 ++ '.' :: g4)) ∧
      octGroup g1 ∧ octGroup g2 ∧ octGroup g3 ∧ octGroup g4 := by
  rw [Ex2.ipFormat]
  constructor
  · intro h
    split at h
    · cases h
    · rename_i t1 h1
      split at h
      · cases h
      · rename_i t2 h2
        split at h
        · cases h
        · rename_i t3 h3
          split at h
          · cases h
          · rename_i r h4
            obtain ⟨g1, rfl, hg1⟩ := octDot_eq_some.mp h1
            obtain ⟨g2, rfl, hg2⟩ := octDot_eq_some.mp h2
            obtain ⟨g3, rfl, hg3⟩ := octDot_eq_some.mp h3
            have hg4 := matchOct_isEmpty.mp ⟨r, h4, h⟩
            exact ⟨g1, g2, g3, t3, rfl, hg1, hg2, hg3, hg4⟩
  · rintro ⟨g1, g2, g3, g4, rfl, hg1, hg2, hg3, hg4⟩
    have e1 : Ex2.octDot (g1 ++ '.' :: (g2 ++ '.' :: (g3 ++ '.' :: g4))) =
        some (g2 ++ '.' :: (g3 ++ '.' :: g4)) := octDot_eq_some.mpr ⟨g1, rfl, hg1⟩
    have e2 : Ex2.octDot (g2 ++ '.' :: (g3 ++ '.' :: g4)) = some (g3 ++ '.' :: g4) :=
      octDot_eq_some.mpr ⟨g2, rfl, hg2⟩
    have e3 : Ex2.octDot (g3 ++ '.' :: g4) = some g4 := octDot_eq_some.mpr ⟨g3, rfl, hg3⟩
    have e4 := matchOct_group_end hg4
    simp only [e1, e2, e3, e4]
    rfl

lemma ipFormat_iff_split (t : Str) : Ex2.ipFormat t = true ↔
    (splitOnDot t).length = 4 ∧ ∀ g ∈ splitOnDot t, octGroup g := by
  rw [ipFormat_iff_groups]
  constructor
  · rintro ⟨g1, g2, g3, g4, rfl, hg1, hg2, hg3, hg4⟩
    have hs : splitOnDot (g1 ++ '.' :: (g2 ++ '.' :: (g3 ++ '.' :: g4))) =
        [g1, g2, g3, g4] := by
      rw [splitOnDot_append_dot _ (octGroup_ne_dot hg1),
        splitOnDot_append_dot _ (octGroup_ne_dot hg2),
        splitOnDot_append_dot _ (octGroup_ne_dot hg3),
        splitOnDot_no_dot (octGroup_ne_dot hg4)]
    rw [hs]
    refine ⟨rfl, ?_⟩
    intro g hg
    simp only [List.mem_cons, List.mem_singleton] at hg
    rcases hg with rfl | rfl | rfl | rfl | h
    · exact hg1
    · exact hg2
    · exact hg3
    · exact hg4
    · cases h
  · rintro ⟨hlen, hall⟩
    match hs : splitOnDot t with
    | [g1, g2, g3, g4] =>
      have ht : t = g1 ++ '.' :: (g2 ++ '.' :: (g3 ++ '.' :: g4)) := by
        have := joinDots_splitOnDot t
        rw [hs] at this
        rw [← this]
        rw [joinDots_cons (by simp), joinDots_cons (by simp), joinDots_cons (by simp)]
        rfl
      refine ⟨g1, g2, g3, g4, ht, ?_, ?_, ?_, ?_⟩ <;>
        exact hall _ (by rw [hs]; simp)
    | [] => rw [hs] at hlen; cases hlen
    | [a] => rw [hs] at hlen; cases hlen
    | [a, b] => rw [hs] at hlen; cases hlen
    | [a, b, c] => rw [hs] at hlen; cases hlen
    | a :: b :: c :: d :: e :: rest => rw [hs] at hlen; simp at hlen

lemma is_valid_ip_iff (s : Str) : Ex2.is_valid_ip s = true ↔
    (splitOnDot (pyStrip s)).length = 4 ∧
      ∀ g ∈ splitOnDot (pyStrip s), octGroup g ∧ toNatDigits g ≤ 255 := by
  rw [Ex2.is_valid_ip]
  by_cases hs : s = [] ∨ pyStrip s = []
  · rw [if_pos hs]
    have hnil : pyStrip s = [] := by
      rcases hs with rfl | hs
      · rfl
      · exact hs
    rw [hnil]
    simp [splitOnDot]
  · rw [if_neg hs]
    by_cases hf : Ex2.ipFormat (pyStrip s) = true
    · rw [if_pos hf]
      obtain ⟨hlen, hgs⟩ := (ipFormat_iff_split (pyStrip s)).mp hf
      rw [List.all_eq_true]
      constructor
      · intro h
        refine ⟨hlen, fun g hg => ⟨hgs g hg, ?_⟩⟩
        have := h g hg
        simp only [decide_eq_true_eq] at this
        exact this.2
      · rintro ⟨_, hall⟩
        intro g hg
        simp only [decide_eq_true_eq]
        exact ⟨Nat.zero_le _, (hall g hg).2⟩
    · rw [if_neg hf]
      constructor
      · intro h
        cases h
      · rintro ⟨hlen, hall⟩
        exact absurd ((ipFormat_iff_split (pyStrip s)).mpr
          ⟨hlen, fun g hg => (hall g hg).1⟩) hf

/-! ## The lexicographic order used by the write pipeline's sort -/

namespace Ex3

lemma char_eq_of_not_lt {a b : Char} (h1 : ¬ a < b) (h2 : ¬ b < a) : a = b :=
  le_antisymm (not_lt.mp h2) (not_lt.mp h1)

lemma strLt_asymm : ∀ (x y : Str), strLt x y = true → strLt y x = false
  | [], [], h => by simp [strLt] at h
  | [], _ :: _, _ => by simp [strLt]
  | _ :: _, [], h => by simp [strLt] at h
  | a :: as, b :: bs, h => by
    simp only [strLt] at h ⊢
    by_cases h1 : a < b
    · rw [if_neg (lt_asymm h1), if_pos h1]
    · rw [if_neg h1] at h
      by_cases h2 : b < a
      · rw [if_pos h2] at h
        cases h
      · rw [if_neg h2] at h
        rw [if_neg h2, if_neg h1]
        exact strLt_asymm as bs h

lemma strLt_trans : ∀ (x y z : Str),
    strLt x y = true → strLt y z = true → strLt x z = true
  | [], [], _, h1, _ => by simp [strLt] at h1
  | [], _ :: _, [], _, h2 => by simp [strLt] at h2
  | [], _ :: _, _ :: _, _, _ => by simp [strLt]
  | _ :: _, [], _, h1, _ => by simp [strLt] at h1
  | _ :: _, _ :: _, [], _, h2 => by simp [strLt] at h2
  | a :: as, b :: bs, c :: cs, h1, h2 => by
    simp only [strLt] at h1 h2 ⊢
    by_cases hab : a < b
    · by_cases hbc : b < c
      · rw [if_pos (lt_trans hab hbc)]
      · rw [if_neg hbc] at h2
        by_cases hcb : c < b
        · rw [if_pos hcb] at h2
          cases h2
        · have : b = c := char_eq_of_not_lt hbc hcb
          rw [if_pos (this ▸ hab)]
    · rw [if_neg hab] at h1
      by_cases hba : b < a
      · rw [if_pos hba] at h1
        cases h1
      · have hab2 : a = b := char_eq_of_not_lt hab hba
        rw [if_neg hba] at h1
        subst hab2
        by_cases hac : a < c
        · rw [if_pos hac]
        · rw [if_neg hac] at h2 ⊢
          by_cases hca : c < a
          · rw [if_pos hca] at h2
            cases h2
          · rw [if_neg hca] at h2 ⊢
            exact strLt_trans as bs cs h1 h2

lemma strLt_connex : ∀ (x y : Str),
    strLt x y = false → strLt y x = false → x = y
  | [], [], _, _ => rfl
  | [], _ :: _, h1, _ => by simp [strLt] at h1
  | _ :: _, [], _, h2 => by simp [strLt] at h2
  | a :: as, b :: bs, h1, h2 => by
    simp only [strLt] at h1 h2
    by_cases hab : a < b
    · rw [if_pos hab] at h1
      cases h1
    · by_cases hba : b < a
      · rw [if_pos hba] at h2
        cases h2
      · rw [if_neg hab, if_neg hba] at h1
        rw [if_neg hba, if_neg hab] at h2
        rw [char_eq_of_not_lt hab hba, strLt_connex as bs h1 h2]

lemma devLe_iff {d e : Device} : devLe d e ↔ strLt e.hostname d.hostname = false := by
  simp [devLe, strLe]

instance : IsTotal Device devLe where
  total d e := by
    rw [devLe_iff, devLe_iff]
    by_cases h : strLt e.hostname d.hostname = true
    · exact Or.inr (strLt_asymm _ _ h)
    · exact Or.inl (Bool.not_eq_true _ ▸ h)

instance : IsTrans Device devLe where
  trans d e f h1 h2 := by
    rw [devLe_iff] at h1 h2 ⊢
    by_contra hfd
    rw [Bool.not_eq_false] at hfd
    by_cases hef : strLt e.hostname f.hostname = true
    · rw [strLt_trans _ _ _ hef hfd] at h1
      cases h1
    · have : e.hostname = f.hostname :=
        strLt_connex _ _ (Bool.not_eq_true _ ▸ hef) h2
      rw [← this] at hfd
      rw [hfd] at h1
      cases h1

lemma sortByHostname_perm (ds : List Device) : (sortByHostname ds).Perm ds :=
  List.perm_insertionSort devLe ds

lemma sortByHostname_sorted (ds : List Device) : List.Sorted devLe (sortByHostname ds) :=
  List.sorted_insertionSort devLe ds

lemma sorted_nodup_pairwise_strLt {ds : List Device}
    (hs : List.Sorted devLe ds) (hn : (ds.map fun d => d.hostname).Nodup) :
    (ds.map fun d => d.hostname).Pairwise fun a b => strLt a b = true := by
  rw [List.pairwise_map]
  rw [List.Nodup, List.pairwise_map] at hn
  have hcomb := List.Pairwise.and hs hn
  refine hcomb.imp ?_
  rintro d e ⟨hle, hne⟩
  rw [devLe_iff] at hle
  by_cases h : strLt d.hostname e.hostname = true
  · exact h
  · exact absurd (strLt_connex _ _ (Bool.not_eq_true _ ▸ h) hle) hne

/-- Invariants of the duplicate-removal loop, generalized over the `seen` set. -/
lemma dedupGo_spec : ∀ (seen : List Str) (ds : List Device),
    (dedupGo seen ds).1.Sublist ds ∧
    (dedupGo seen ds).1.length + (dedupGo seen ds).2 = ds.length ∧
    (∀ d ∈ (dedupGo seen ds).1, d.hostname ∉ seen) ∧
    ((dedupGo seen ds).1.map fun d => d.hostname).Nodup ∧
    (∀ d ∈ ds, d.hostname ∈ seen ∨
      d.hostname ∈ ((dedupGo seen ds).1.map fun d => d.hostname)) ∧
    (∀ d ∈ (dedupGo seen ds).1,
      ds.find? (fun e => e.hostname == d.hostname) = some d)
  | seen, [] => by
    refine ⟨List.Sublist.refl _, rfl, ?_, ?_, ?_, ?_⟩ <;> simp [dedupGo]
  | seen, d :: rest => by
    by_cases hmem : d.hostname ∈ seen
    · have hgo : dedupGo seen (d :: rest) =
          ((dedupGo seen rest).1, (dedupGo seen rest).2 + 1) := by
        rw [dedupGo, if_pos hmem]
      obtain ⟨ih1, ih2, ih3, ih4, ih5, ih6⟩ := dedupGo_spec seen rest
      rw [hgo]
      refine ⟨ih1.cons d, by simpa using by omega, ih3, ih4, ?_, ?_⟩
      · intro e he
        rw [List.mem_cons] at he
        rcases he with rfl | he
        · exact Or.inl hmem
        · exact ih5 e he
      · intro e he
        have hne : e.hostname ≠ d.hostname := by
          intro heq
          exact ih3 e he (heq ▸ hmem)
        rw [List.find?_cons_of_neg _ (by simpa using fun h => hne h.symm)]
        exact ih6 e he
    · have hgo : dedupGo seen (d :: rest) =
          (d :: (dedupGo (d.hostname :: seen) rest).1,
            (dedupGo (d.hostname :: seen) rest).2) := by
        rw [dedupGo, if_neg hmem]
      obtain ⟨ih1, ih2, ih3, ih4, ih5, ih6⟩ := dedupGo_spec (d.hostname :: seen) rest
      rw [hgo]
      have hnotin : ∀ e ∈ (dedupGo (d.hostname :: seen) rest).1,
          e.hostname ≠ d.hostname := by
        intro e he heq
        exact ih3 e he (by rw [heq]; exact List.mem_cons_self _ _)
      refine ⟨ih1.cons₂ d, by simpa using by omega, ?_, ?_, ?_, ?_⟩
      · intro e he
        rw [List.mem_cons] at he
        rcases he with rfl | he
        · exact hmem
        · exact fun hin => ih3 e he (List.mem_cons_of_mem _ hin)
      · rw [List.map_cons, List.nodup_cons]
        refine ⟨?_, ih4⟩
        rw [List.mem_map]
        rintro ⟨e, he, heq⟩
        exact hnotin e he heq
      · intro e he
        rw [List.mem_cons] at he
        rcases he with rfl | he
        · exact Or.inr (by simp)
        · rcases ih5 e he with hin | hin
          · rw [List.mem_cons] at hin
            rcases hin with heq | hin
            · exact Or.inr (by rw [heq, List.map_cons]; simp)
            · exact Or.inl hin
          · exact Or.inr (by rw [List.map_cons]; exact List.mem_cons_of_mem _ hin)
      · intro e he
        rw [List.mem_cons] at he
        rcases he with rfl | he
        · rw [List.find?_cons_of_pos _ (by simp)]
        · rw [List.find?_cons_of_neg _ (by simpa using fun h => (hnotin e he h.symm).elim)]
          exact ih6 e he

end Ex3

/-! ## Idempotence of the normalizers -/

lemma lowerStrip_fixes (s : Str) :
    pyLower (pyStrip (pyLower s)) = pyStrip (pyLower s) :=
  pyLower_eq_self fun _ hc => mem_pyLower (mem_pyStrip hc)

lemma lowerStrip_idem (s : Str) :
    pyStrip (pyLower (pyStrip (pyLower s))) = pyStrip (pyLower s) := by
  rw [lowerStrip_fixes, pyStrip_idem]

lemma map_mem_fix {f : Char → Char} {s : Str} (h : List.map f s = s) :
    ∀ c ∈ s, f c = c := by
  induction s with
  | nil => intro c hc; cases hc
  | cons a t ih =>
    rw [List.map_cons] at h
    injection h with h1 h2
    intro c hc
    rw [List.mem_cons] at hc
    rcases hc with rfl | hc
    · exact h1
    · exact ih h2 c hc

lemma pyStrip_pyReplace {a b : Char} {s : Str} (hb : pyWS b = false)
    (h : pyStrip s = s) : pyStrip (pyReplace a b s) = pyReplace a b s := by
  apply pyStrip_eq_self
  · intro c hc
    rw [pyReplace, List.head?_map] at hc
    cases hh : s.head? with
    | none => rw [hh] at hc; cases hc
    | some d =>
      rw [hh, Option.map_some'] at hc
      have hcd : c = if d = a then b else d := by
        injection hc with h1
        exact h1.symm
      have hd : pyWS d = false := pyStrip_head?_ws (h.symm ▸ hh)
      rw [hcd]
      split
      · exact hb
      · exact hd
  · intro c hc
    rw [pyReplace, List.getLast?_map] at hc
    cases hh : s.getLast? with
    | none => rw [hh] at hc; cases hc
    | some d =>
      rw [hh, Option.map_some'] at hc
      have hcd : c = if d = a then b else d := by
        injection hc with h1
        exact h1.symm
      have hd : pyWS d = false := pyStrip_getLast?_ws (h.symm ▸ hh)
      rw [hcd]
      split
      · exact hb
      · exact hd

lemma lfix_pyReplace {a b : Char} {s : Str} (hb : Char.toLower b = b)
    (h : ∀ c ∈ s, Char.toLower c = c) :
    ∀ c ∈ pyReplace a b s, Char.toLower c = c := fun c hc =>
  (mem_pyReplace_or hc).elim (fun e => e ▸ hb) (h c)

lemma tblGet_type_values {q v : Str} (h : tblGet type_mapping q = some v) :
    v = "switch".toList ∨ v = "router".toList ∨ v = "firewall".toList := by
  simp only [type_mapping, tblGet] at h
  split_ifs at h <;> simp_all

lemma tblGet_loc_values {q v : Str} (h : tblGet location_mapping q = some v) :
    v = "building-a".toList ∨ v = "building-b".toList ∨ v = "building-c".toList ∨
      v = "data-center".toList := by
  simp only [location_mapping, tblGet] at h
  split_ifs at h <;> simp_all

lemma tblGet_loc_keys {q v : Str} (h : tblGet location_mapping q = some v) :
    q = "bldg a".toList ∨ q = "building a".toList ∨ q = "bldg b".toList ∨
      q = "building b".toList ∨ q = "bldg c".toList ∨ q = "building c".toList ∨
      q = "dc".toList ∨ q = "data center".toList ∨ q = "datacenter".toList := by
  simp only [location_mapping, tblGet] at h
  split_ifs at h <;> simp_all

lemma Ex2.normalize_device_type_idem (s : Str) :
    Ex2.normalize_device_type (Ex2.normalize_device_type s) =
      Ex2.normalize_device_type s := by
  cases h : tblGet type_mapping (pyStrip (pyLower s)) with
  | none =>
    have hnd : Ex2.normalize_device_type s = pyStrip (pyLower s) := by
      rw [Ex2.normalize_device_type, h]
      rfl
    rw [hnd, Ex2.normalize_device_type, lowerStrip_idem, h]
    rfl
  | some v =>
    have hnd : Ex2.normalize_device_type s = v := by
      rw [Ex2.normalize_device_type, h]
      rfl
    rw [hnd]
    rcases tblGet_type_values h with rfl | rfl | rfl <;> decide

lemma Ex2.normalize_location_idem (s : Str) :
    Ex2.normalize_location (Ex2.normalize_location s) = Ex2.normalize_location s := by
  cases h : tblGet location_mapping (pyStrip (pyLower s)) with
  | some v =>
    have hnl : Ex2.normalize_location s = v := by
      rw [Ex2.normalize_location, h]
      rfl
    rw [hnl]
    rcases tblGet_loc_values h with rfl | rfl | rfl | rfl <;> decide
  | none =>
    have hnl : Ex2.normalize_location s = pyReplace ' ' '-' (pyStrip (pyLower s)) := by
      rw [Ex2.normalize_location, h]
      rfl
    have hlow : pyLower (pyReplace ' ' '-' (pyStrip (pyLower s))) =
        pyReplace ' ' '-' (pyStrip (pyLower s)) :=
      pyLower_eq_self (lfix_pyReplace (by decide)
        (fun c hc => mem_pyLower (mem_pyStrip hc)))
    have hst : pyStrip (pyReplace ' ' '-' (pyStrip (pyLower s))) =
        pyReplace ' ' '-' (pyStrip (pyLower s)) :=
      pyStrip_pyReplace (by decide) (pyStrip_idem (pyLower s))
    have hsp : ' ' ∉ pyReplace ' ' '-' (pyStrip (pyLower s)) :=
      not_mem_pyReplace (by decide)
    have htbl : tblGet location_mapping (pyReplace ' ' '-' (pyStrip (pyLower s))) =
        none := by
      cases h2 : tblGet location_mapping (pyReplace ' ' '-' (pyStrip (pyLower s))) with
      | none => rfl
      | some w =>
        exfalso
        rcases tblGet_loc_keys h2 with hk | hk | hk | hk | hk | hk | hk | hk | hk
        · exact hsp (hk ▸ (by decide : ' ' ∈ "bldg a".toList))
        · exact hsp (hk ▸ (by decide : ' ' ∈ "building a".toList))
        · exact hsp (hk ▸ (by decide : ' ' ∈ "bldg b".toList))
        · exact hsp (hk ▸ (by decide : ' ' ∈ "building b".toList))
        · exact hsp (hk ▸ (by decide : ' ' ∈ "bldg c".toList))
        · exact hsp (hk ▸ (by decide : ' ' ∈ "building c".toList))
        · have hdn : pyReplace ' ' '-' (pyStrip (pyLower s)) = pyStrip (pyLower s) := by
            apply pyReplace_eq_self_of_not_mem
            rw [hk]
            decide
          rw [hdn] at hk
          rw [hk] at h
          exact absurd h (by decide)
        · exact hsp (hk ▸ (by decide : ' ' ∈ "data center".toList))
        · have hdn : pyReplace ' ' '-' (pyStrip (pyLower s)) = pyStrip (pyLower s) := by
            apply pyReplace_eq_self_of_not_mem
            rw [hk]
            decide
          rw [hdn] at hk
          rw [hk] at h
          exact absurd h (by decide)
    rw [hnl, Ex2.normalize_location, hlow, hst, htbl]
    exact pyReplace_eq_self hsp

lemma Ex3.normalize_hostname_idem (s : Str) :
    Ex3.normalize_hostname (Ex3.normalize_hostname s) = Ex3.normalize_hostname s := by
  rw [Ex3.normalize_hostname, Ex3.normalize_hostname]
  have hlow : pyLower (pyReplace ' ' '-' (pyReplace '_' '-' (pyStrip (pyLower s)))) =
      pyReplace ' ' '-' (pyReplace '_' '-' (pyStrip (pyLower s))) :=
    pyLower_eq_self (lfix_pyReplace (by decide) (lfix_pyReplace (by decide)
      (fun c hc => mem_pyLower (mem_pyStrip hc))))
  have hst : pyStrip (pyReplace ' ' '-' (pyReplace '_' '-' (pyStrip (pyLower s)))) =
      pyReplace ' ' '-' (pyReplace '_' '-' (pyStrip (pyLower s))) :=
    pyStrip_pyReplace (by decide)
      (pyStrip_pyReplace (by decide) (pyStrip_idem (pyLower s)))
  have hu : '_' ∉ pyReplace ' ' '-' (pyReplace '_' '-' (pyStrip (pyLower s))) := by
    intro hmem
    rcases mem_pyReplace_or hmem with he | hmem2
    · cases he
    · exact not_mem_pyReplace (by decide) hmem2
  have hsp : ' ' ∉ pyReplace ' ' '-' (pyReplace '_' '-' (pyStrip (pyLower s))) :=
    not_mem_pyReplace (by decide)
  rw [hlow, hst, pyReplace_eq_self hu, pyReplace_eq_self hsp]

lemma underscore_not_mem_pyLower {s : Str} (h : ∀ c ∈ s, alnumHyphen c = true) :
    '_' ∉ pyLower s := by
  rw [pyLower]
  intro hmem
  rw [List.mem_map] at hmem
  obtain ⟨a, ha, hae⟩ := hmem
  exact toLower_ne_underscore (h a ha) hae

/-! ## The claims -/

/-- Claim C1: in the write pipeline, deduplication scans the transformed
`Device` list in original order, keeps the first `Device` per normalized
hostname (each retained device is the `find?`-first occurrence of its
hostname), counts every later device with the same hostname as one duplicate
(`kept + duplicates = input length`), and the retained devices are then
sorted ascending by hostname, so the output has pairwise-distinct hostnames
in strictly ascending lexicographic order.  For the concrete two-row input
with hostnames `"SW-01"` and `"sw_01"` (both normalizing to `"sw-01"`), the
pipeline outputs exactly one device with hostname `"sw-01"` and the
duplicate counter equals 1. -/
theorem C1_write_pipeline_dedup_sort (ds : List Ex3.Device) :
    (Ex3.removeDuplicates ds).1.Sublist ds ∧
    (∀ d ∈ (Ex3.removeDuplicates ds).1,
      ds.find? (fun e => e.hostname == d.hostname) = some d) ∧
    ((Ex3.removeDuplicates ds).1.map fun d => d.hostname).Nodup ∧
    (∀ d ∈ ds, d.hostname ∈ ((Ex3.removeDuplicates ds).1.map fun d => d.hostname)) ∧
    (Ex3.removeDuplicates ds).1.length + (Ex3.removeDuplicates ds).2 = ds.length ∧
    (Ex3.sortByHostname (Ex3.removeDuplicates ds).1).Perm (Ex3.removeDuplicates ds).1 ∧
    ((Ex3.sortByHostname (Ex3.removeDuplicates ds).1).map fun d => d.hostname).Pairwise
      (fun a b => Ex3.strLt a b = true) ∧
    ((Ex3.task_3_transform_pipeline
        [{ hostname := some "SW-01".toList, ip := some "10.0.1.1".toList,
           type := some "sw".toList, loc := some "Bldg A".toList },
         { hostname := some "sw_01".toList, ip := some "10.0.1.2".toList,
           type := some "sw".toList, loc := some "Bldg A".toList }]).1.map
        (fun d => d.hostname) = ["sw-01".toList] ∧
      (Ex3.task_3_transform_pipeline
        [{ hostname := some "SW-01".toList, ip := some "10.0.1.1".toList,
           type := some "sw".toList, loc := some "Bldg A".toList },
         { hostname := some "sw_01".toList, ip := some "10.0.1.2".toList,
           type := some "sw".toList, loc := some "Bldg A".toList }]).2.2 = 1) := by
  obtain ⟨h1, h2, h3, h4, h5, h6⟩ := Ex3.dedupGo_spec [] ds
  have hperm := Ex3.sortByHostname_perm (Ex3.removeDuplicates ds).1
  have hsorted := Ex3.sortByHostname_sorted (Ex3.removeDuplicates ds).1
  have hnodup : ((Ex3.sortByHostname (Ex3.removeDuplicates ds).1).map
      fun d => d.hostname).Nodup :=
    ((hperm.map fun d => d.hostname).nodup_iff).mpr h4
  refine ⟨h1, h6, h4, ?_, h2, hperm, Ex3.sorted_nodup_pairwise_strLt hsorted hnodup,
    by decide, by decide⟩
  intro d hd
  rcases h5 d hd with hin | hin
  · cases hin
  · exact hin

/-- Claim C1 witness: the general theorem applied to a concrete two-element
list whose devices share a hostname. -/
theorem C1_write_pipeline_dedup_sort_witness :
    ({ hostname := "a".toList, ip_address := "1".toList, device_type := [],
       location := [], status := "active".toList } : Ex3.Device) ∈
      (Ex3.removeDuplicates
        [{ hostname := "a".toList, ip_address := "1".toList, device_type := [],
           location := [], status := "active".toList },
         { hostname := "a".toList, ip_address := "2".toList, device_type := [],
           location := [], status := "active".toList }]).1 ∧
    List.find?
      (fun e => e.hostname == ("a".toList : Str))
      [({ hostname := "a".toList, ip_address := "1".toList, device_type := [],
          location := [], status := "active".toList } : Ex3.Device),
       { hostname := "a".toList, ip_address := "2".toList, device_type := [],
         location := [], status := "active".toList }] =
      some { hostname := "a".toList, ip_address := "1".toList, device_type := [],
             location := [], status := "active".toList } :=
  ⟨by decide,
    (C1_write_pipeline_dedup_sort
      [{ hostname := "a".toList, ip_address := "1".toList, device_type := [],
         location := [], status := "active".toList },
       { hostname := "a".toList, ip_address := "2".toList, device_type := [],
         location := [], status := "active".toList }]).2.1
      { hostname := "a".toList, ip_address := "1".toList, device_type := [],
        location := [], status := "active".toList } (by decide)⟩

/-- Claim C2 counterexample: the claim asserts that any string containing a
character outside `[A-Za-z0-9-]` is rejected; but `" a"` contains a space
(outside the class) and `is_valid_hostname` accepts it, because the code
strips surrounding whitespace before matching the regex. -/
theorem C2_hostname_validator_counterexample :
    ' ' ∈ (" a".toList : Str) ∧ alnumHyphen ' ' = false ∧
      Ex2.is_valid_hostname " a".toList = true := by
  decide

/-- Claim C2 (amended): `is_valid_hostname s` is true iff `s` is non-empty
after trimming and the trimmed `s` is a single alphanumeric or starts and
ends alphanumeric with only alphanumerics/hyphens between; every non-empty
string of alphanumerics and hyphens not starting or ending with a hyphen is
accepted; any string whose *trimmed form* contains a character outside
`[A-Za-z0-9-]` is rejected; any string starting or ending with a hyphen is
rejected; single-character alphanumeric strings are accepted. -/
theorem C2_hostname_validator_amended (s : Str) :
    (Ex2.is_valid_hostname s = true ↔ pyStrip s ≠ [] ∧ hostnameSpec (pyStrip s)) ∧
    (s ≠ [] → (∀ c ∈ s, alnumHyphen c = true) → s.head? ≠ some '-' →
      s.getLast? ≠ some '-' → Ex2.is_valid_hostname s = true) ∧
    ((∃ c ∈ pyStrip s, alnumHyphen c = false) → Ex2.is_valid_hostname s = false) ∧
    ((s.head? = some '-' ∨ s.getLast? = some '-') → Ex2.is_valid_hostname s = false) ∧
    (∀ c : Char, s = [c] → c.isAlphanum = true → Ex2.is_valid_hostname s = true) := by
  refine ⟨Ex2.is_valid_hostname_iff s, Ex2.is_valid_of_clean, ?_, ?_, ?_⟩
  · rintro ⟨c, hc, hbad⟩
    by_contra hne
    rw [Bool.not_eq_false] at hne
    have hspec := ((Ex2.is_valid_hostname_iff s).mp hne).2
    rw [Ex2.hostnameSpec_chars hspec c hc] at hbad
    cases hbad
  · intro h
    by_contra hne
    rw [Bool.not_eq_false] at hne
    have hspec := ((Ex2.is_valid_hostname_iff s).mp hne).2
    rcases h with hh | hl
    · have := Ex2.hostnameSpec_head hspec '-' (pyStrip_head?_of hh (by decide))
      cases this
    · have := Ex2.hostnameSpec_getLast hspec '-' (pyStrip_getLast?_of hl (by decide))
      cases this
  · rintro c rfl hc
    refine Ex2.is_valid_of_clean (by simp) ?_ ?_ ?_
    · intro x hx
      rw [List.mem_singleton] at hx
      exact hx ▸ alnumHyphen_of_isAlphanum hc
    · intro he
      injection he with he
      exact isAlphanum_ne_hyphen hc he
    · intro he
      injection he with he
      exact isAlphanum_ne_hyphen hc he

/-- Claim C2 witness: the amended theorem applied to the concrete clean
hostname `"a-1"`. -/
theorem C2_hostname_validator_witness :
    (("a-1".toList : Str) ≠ [] ∧ (∀ c ∈ ("a-1".toList : Str), alnumHyphen c = true) ∧
      ("a-1".toList : Str).head? ≠ some '-' ∧ ("a-1".toList : Str).getLast? ≠ some '-') ∧
    Ex2.is_valid_hostname "a-1".toList = true :=
  ⟨⟨by decide, by decide, by decide, by decide⟩,
    (C2_hostname_validator_amended "a-1".toList).2.1
      (by decide) (by decide) (by decide) (by decide)⟩

/-- Claim C3: `is_valid_ip s` is true iff, after trimming, `s` consists of
exactly four dot-separated groups of 1 to 3 digits each parsing to an
integer in `[0, 255]` (leading zeros accepted, no canonicalization); and
`"256.1.1.1"`, `"10.0.1"` and the empty string are rejected. -/
theorem C3_ip_validator (s : Str) :
    (Ex2.is_valid_ip s = true ↔
      (splitOnDot (pyStrip s)).length = 4 ∧
        ∀ g ∈ splitOnDot (pyStrip s),
          octGroup g ∧ 0 ≤ toNatDigits g ∧ toNatDigits g ≤ 255) ∧
    Ex2.is_valid_ip "256.1.1.1".toList = false ∧
    Ex2.is_valid_ip "10.0.1".toList = false ∧
    Ex2.is_valid_ip [] = false := by
  refine ⟨?_, by decide, by decide, by decide⟩
  rw [is_valid_ip_iff]
  constructor
  · rintro ⟨hlen, hall⟩
    exact ⟨hlen, fun g hg => ⟨(hall g hg).1, Nat.zero_le _, (hall g hg).2⟩⟩
  · rintro ⟨hlen, hall⟩
    exact ⟨hlen, fun g hg => ⟨(hall g hg).1, (hall g hg).2.2⟩⟩

/-- Claim C4: for every row number and row, the `ValidationResult` returned
by `validate_row` has `cleaned_data` present iff `is_valid` is true, and
`is_valid` is true iff the error list is empty. -/
theorem C4_validation_result_invariant (row_num : Nat) (row : Row) :
    ((Ex2.validate_row row_num row).cleaned_data ≠ none ↔
      (Ex2.validate_row row_num row).is_valid = true) ∧
    ((Ex2.validate_row row_num row).is_valid = true ↔
      (Ex2.validate_row row_num row).errors = []) := by
  simp only [Ex2.validate_row]
  split_ifs <;> simp_all

/-- Claim C5: a row whose resolved hostname is present and valid, whose
device type and location are non-empty after trimming, but whose resolved IP
is empty after trimming, yields exactly one error, the string
`"Missing IP address"`, and no cleaned data. -/
theorem C5_missing_ip_single_error (row_num : Nat) (row : Row)
    (hh1 : pyStrip (rawHostname row) ≠ [])
    (hh2 : Ex2.is_valid_hostname (pyStrip (rawHostname row)) = true)
    (ht : pyStrip (rawType row) ≠ [])
    (hl : pyStrip (rawLoc row) ≠ [])
    (hip : pyStrip (rawIp row) = []) :
    (Ex2.validate_row row_num row).errors = [Ex2.missingIpMsg] ∧
    (Ex2.validate_row row_num row).cleaned_data = none := by
  simp only [Ex2.validate_row]
  simp [hh1, hh2, ht, hl, hip, Ex2.missingIpMsg]

/-- Claim C5 witness: the theorem applied to a concrete row with a valid
hostname, device type `"sw"`, location `"dc"`, and an empty IP value. -/
theorem C5_missing_ip_single_error_witness :
    (pyStrip (rawHostname { hostname := some "sw-1".toList, ip := some "".toList, type := some "sw".toList, loc := some "dc".toList }) ≠ [] ∧
      pyStrip (rawIp { hostname := some "sw-1".toList, ip := some "".toList, type := some "sw".toList, loc := some "dc".toList }) = []) ∧
    (Ex2.validate_row 2 { hostname := some "sw-1".toList, ip := some "".toList, type := some "sw".toList, loc := some "dc".toList }).errors =
      [Ex2.missingIpMsg] ∧
    (Ex2.validate_row 2 { hostname := some "sw-1".toList, ip := some "".toList, type := some "sw".toList, loc := some "dc".toList }).cleaned_data = none :=
  ⟨⟨by decide, by decide⟩,
    C5_missing_ip_single_error 2
      { hostname := some "sw-1".toList, ip := some "".toList, type := some "sw".toList, loc := some "dc".toList }
      (by decide) (by decide) (by decide) (by decide) (by decide)⟩

/-- Claim C6: `is_valid_row` is true iff both the resolved hostname and the
resolved IP are non-empty after trimming; `transform_row` returns a `Device`
iff `is_valid_row` is true; no format validation happens at this stage, so a
row with the malformed IP `"NOT_ASSIGNED"` still yields a `Device`. -/
theorem C6_presence_only_filter (row : Row) :
    (Ex3.is_valid_row row = true ↔
      pyStrip (rawHostname row) ≠ [] ∧ pyStrip (rawIp row) ≠ []) ∧
    ((Ex3.transform_row row).isSome = true ↔ Ex3.is_valid_row row = true) ∧
    Ex3.transform_row
        { hostname := some "sw-01".toList, ip := some "NOT_ASSIGNED".toList } =
      some { hostname := "sw-01".toList, ip_address := "NOT_ASSIGNED".toList,
             device_type := [], location := [], status := "active".toList } := by
  refine ⟨?_, ?_, by decide⟩
  · simp [Ex3.is_valid_row]
  · rw [Ex3.transform_row]
    by_cases h : Ex3.is_valid_row row
    · simp [h]
    · simp [h]

/-- Claim C7: `normalize_device_type` is identical in exercise-2 and
exercise-3; it lower-cases and trims its argument, returns the table image
when the result is a key of the fixed mapping, and returns the lower-cased
trimmed string unchanged otherwise; `"sw" ↦ "switch"`, `"RTR" ↦ "router"`,
and `"unknown" ↦ "unknown"`. -/
theorem C7_normalize_device_type (s : Str) :
    Ex2.normalize_device_type s = Ex3.normalize_device_type s ∧
    (∀ v, tblGet type_mapping (pyStrip (pyLower s)) = some v →
      Ex2.normalize_device_type s = v) ∧
    (tblGet type_mapping (pyStrip (pyLower s)) = none →
      Ex2.normalize_device_type s = pyStrip (pyLower s)) ∧
    Ex2.normalize_device_type "sw".toList = "switch".toList ∧
    Ex2.normalize_device_type "RTR".toList = "router".toList ∧
    Ex2.normalize_device_type "unknown".toList = "unknown".toList := by
  refine ⟨rfl, ?_, ?_, by decide, by decide, by decide⟩
  · intro v h
    rw [Ex2.normalize_device_type, h]
    rfl
  · intro h
    rw [Ex2.normalize_device_type, h]
    rfl

/-- Claim C7 witness: the mapped case of the theorem at the concrete
key `"sw"`. -/
theorem C7_normalize_device_type_witness :
    tblGet type_mapping (pyStrip (pyLower "sw".toList)) = some "switch".toList ∧
    Ex2.normalize_device_type "sw".toList = "switch".toList :=
  ⟨by decide, (C7_normalize_device_type "sw".toList).2.1 "switch".toList (by decide)⟩

/-- Claim C8: each normalizer is idempotent — `normalize_device_type`,
`normalize_location` (both exercises) and `normalize_hostname` all satisfy
`f (f s) = f s`; in particular `normalize_device_type "switch" = "switch"`. -/
theorem C8_normalizer_idempotence (s : Str) :
    Ex2.normalize_device_type (Ex2.normalize_device_type s) =
      Ex2.normalize_device_type s ∧
    Ex2.normalize_location (Ex2.normalize_location s) = Ex2.normalize_location s ∧
    Ex3.normalize_hostname (Ex3.normalize_hostname s) = Ex3.normalize_hostname s ∧
    Ex3.normalize_device_type (Ex3.normalize_device_type s) =
      Ex3.normalize_device_type s ∧
    Ex3.normalize_location (Ex3.normalize_location s) = Ex3.normalize_location s ∧
    Ex2.normalize_device_type "switch".toList = "switch".toList :=
  ⟨Ex2.normalize_device_type_idem s, Ex2.normalize_location_idem s,
    Ex3.normalize_hostname_idem s, Ex2.normalize_device_type_idem s,
    Ex2.normalize_location_idem s, by decide⟩

/-- Claim C9: whenever `validate_row` reports a valid row, the cleaned
hostname equals the trimmed lower-cased raw hostname and contains no
underscore: the underscore-to-hyphen replacement is a no-op because the
hostname validator rejects underscores. -/
theorem C9_cleaned_hostname_no_underscore (row_num : Nat) (row : Row)
    (h : (Ex2.validate_row row_num row).is_valid = true) :
    ∃ cd, (Ex2.validate_row row_num row).cleaned_data = some cd ∧
      cd.hostname = pyLower (pyStrip (rawHostname row)) ∧ '_' ∉ cd.hostname := by
  simp only [Ex2.validate_row] at h ⊢
  rw [beq_iff_eq, List.length_eq_zero] at h
  obtain ⟨h123, h4⟩ := List.append_eq_nil.mp h
  obtain ⟨h12, h3⟩ := List.append_eq_nil.mp h123
  obtain ⟨h1, h2⟩ := List.append_eq_nil.mp h12
  have hval : Ex2.is_valid_hostname (pyStrip (rawHostname row)) = true := by
    by_cases ha : pyStrip (rawHostname row) = []
    · rw [if_pos ha] at h1
      cases h1
    · rw [if_neg ha] at h1
      by_cases hb : Ex2.is_valid_hostname (pyStrip (rawHostname row)) = true
      · exact hb
      · rw [if_neg hb] at h1
        cases h1
  have hchars : ∀ c ∈ pyStrip (rawHostname row), alnumHyphen c = true := by
    have hspec := ((Ex2.is_valid_hostname_iff (pyStrip (rawHostname row))).mp hval).2
    rw [pyStrip_idem] at hspec
    exact Ex2.hostnameSpec_chars hspec
  have hu : '_' ∉ pyLower (pyStrip (rawHostname row)) :=
    underscore_not_mem_pyLower hchars
  rw [h, if_pos rfl]
  exact ⟨_, rfl, pyReplace_eq_self hu, by
    simpa [pyReplace_eq_self hu] using hu⟩

/-- Claim C9 witness: the theorem applied to a concrete fully-valid row. -/
theorem C9_cleaned_hostname_no_underscore_witness :
    (Ex2.validate_row 2 { hostname := some "SW-01".toList, ip := some "10.0.0.1".toList, type := some "sw".toList, loc := some "dc".toList }).is_valid = true ∧
    ∃ cd,
      (Ex2.validate_row 2 { hostname := some "SW-01".toList, ip := some "10.0.0.1".toList, type := some "sw".toList, loc := some "dc".toList }).cleaned_data = some cd ∧
      cd.hostname = pyLower (pyStrip (rawHostname { hostname := some "SW-01".toList, ip := some "10.0.0.1".toList, type := some "sw".toList, loc := some "dc".toList })) ∧ '_' ∉ cd.hostname :=
  ⟨by decide,
    C9_cleaned_hostname_no_underscore 2
      { hostname := some "SW-01".toList, ip := some "10.0.0.1".toList, type := some "sw".toList, loc := some "dc".toList } (by decide)⟩

/-- Claim C10: the alternate-column-name fallback resolves on key presence,
not value content: whenever the `"ip"` key is present with a value that is
empty after trimming, `validate_row` reports `"Missing IP address"` and
`is_valid_row` rejects the row, whatever `"ip_address"` holds; and for all
four field pairs the resolution ignores the alternate key whenever the
primary key is present. -/
theorem C10_alias_fallback_presence (row_num : Nat) (row : Row) (v : Str)
    (hv : row.ip = some v) (he : pyStrip v = []) :
    Ex2.missingIpMsg ∈ (Ex2.validate_row row_num row).errors ∧
    Ex3.is_valid_row row = false ∧
    (∀ x : Option Str, rawIp { row with ip_address := x } = v) ∧
    (∀ (r : Row) (w : Str), r.hostname = some w →
      ∀ x : Option Str, rawHostname { r with name := x } = w) ∧
    (∀ (r : Row) (w : Str), r.type = some w →
      ∀ x : Option Str, rawType { r with device_type := x } = w) ∧
    (∀ (r : Row) (w : Str), r.loc = some w →
      ∀ x : Option Str, rawLoc { r with location := x } = w) := by
  have hraw : rawIp row = v := by
    rw [rawIp, hv]
    rfl
  refine ⟨?_, ?_, ?_, ?_, ?_, ?_⟩
  · simp only [Ex2.validate_row]
    rw [hraw, he]
    simp
  · simp [Ex3.is_valid_row, hraw, he]
  · intro x
    simp [rawIp, hv]
  · intro r w hw x
    simp [rawHostname, hw]
  · intro r w hw x
    simp [rawType, hw]
  · intro r w hw x
    simp [rawLoc, hw]

/-- Claim C10 witness: the theorem applied to a concrete row whose `"ip"`
key holds a whitespace-only value while `"ip_address"` holds a valid IP. -/
theorem C10_alias_fallback_presence_witness :
    (({ hostname := some "sw-1".toList, ip := some " ".toList, ip_address := some "10.0.0.1".toList } : Row).ip = some " ".toList ∧
      pyStrip " ".toList = []) ∧
    Ex2.missingIpMsg ∈ (Ex2.validate_row 2
      { hostname := some "sw-1".toList, ip := some " ".toList, ip_address := some "10.0.0.1".toList }).errors ∧
    Ex3.is_valid_row { hostname := some "sw-1".toList, ip := some " ".toList, ip_address := some "10.0.0.1".toList } = false :=
  ⟨⟨by decide, by decide⟩,
    (C10_alias_fallback_presence 2
      { hostname := some "sw-1".toList, ip := some " ".toList, ip_address := some "10.0.0.1".toList } " ".toList (by decide) (by decide)).1,
    (C10_alias_fallback_presence 2
      { hostname := some "sw-1".toList, ip := some " ".toList, ip_address := some "10.0.0.1".toList } " ".toList (by decide) (by decide)).2.1⟩
